import Mathlib

set_option maxRecDepth 100000

/-!
Shallow embedding of the cepdne repository (src/update_dne.py and src/app.py).

Strings of the Python program are modelled as `List Char`; Python slicing
`s[a:b]`, `str.strip()`, `str.split()` and `" ".join` are embedded as total
Lean functions with the same semantics.  The MySQL statements executed by
`sync_database` are embedded as list operations on the rows of the target
relation, with the transaction boundary (single `conn.commit()` at the end,
rollback of uncommitted work when an exception escapes the connection
context) made explicit by a `TxState` carrying the committed contents and
the pending, not-yet-committed contents.  The Flask control surface of
src/app.py is embedded as a small interleaving model of the `/run` handler
and the background worker thread.
-/

/-- The set of characters Python's `str.split()` / `str.strip()` treat as
whitespace, restricted to code points that can appear in a latin1-decoded
line (src/update_dne.py reads files with encoding="latin1"). -/
def isPySpace (c : Char) : Bool :=
  c = ' ' || c = '\t' || c = '\n' || c = '\x0b' || c = '\x0c' || c = '\r' ||
  c = '\x1c' || c = '\x1d' || c = '\x1e' || c = '\x1f' || c = '\x85' || c = '\xa0'

/-- Python slice `s[a:b]` for `0 ≤ a ≤ b`: total, clipped at the end of the
string, empty when `a` is past the end. -/
def pySlice (l : List Char) (a b : Nat) : List Char :=
  (l.drop a).take (b - a)

/-- Python `str.strip()`: remove leading and trailing whitespace. -/
def pyStrip (l : List Char) : List Char :=
  ((l.dropWhile isPySpace).reverse.dropWhile isPySpace).reverse

/-- Python `str.split()` with no argument: maximal non-whitespace runs, with
no empty words. -/
def splitWS (l : List Char) : List (List Char) :=
  (l.splitOnP isPySpace).filter (fun w => !w.isEmpty)

/-- `normalize_spaces` of src/update_dne.py: `" ".join(value.split())`. -/
def normalize_spaces (l : List Char) : List Char :=
  List.intercalate [' '] (splitWS l)

/-- The `DneRecord` dataclass of src/update_dne.py; also the row type of the
target and staging relations (columns cep, street, city, region,
neighborhood). -/
structure DneRecord where
  cep : List Char
  street : List Char
  city : List Char
  region : List Char
  neighborhood : List Char
deriving DecidableEq, Repr

/-- `parse_logradouro_line` of src/update_dne.py, field for field:
reject when the line is empty or does not start with the sentinel 'D';
extract the fixed-offset slices; reject when the stripped postcode is empty;
neighborhood falls back from the initial field to the final field
(`neighborhood_initial or neighborhood_final`); the street is the
space-join of the non-empty street subfields, normalized again. -/
def parse_logradouro_line (line : List Char) : Option DneRecord :=
  if line = [] ∨ line.head? ≠ some 'D' then none
  else
    let region := pyStrip (pySlice line 1 3)
    let city := normalize_spaces (pySlice line 17 89)
    let neighborhood_initial := normalize_spaces (pySlice line 102 174)
    let neighborhood_final := normalize_spaces (pySlice line 187 259)
    let tipo_logradouro := normalize_spaces (pySlice line 259 285)
    let preposicao := normalize_spaces (pySlice line 285 288)
    let titulo := normalize_spaces (pySlice line 288 360)
    let nome_logradouro := normalize_spaces (pySlice line 374 446)
    let cep := pyStrip (pySlice line 518 526)
    if cep = [] then none
    else
      let neighborhood :=
        if neighborhood_initial = [] then neighborhood_final else neighborhood_initial
      let street := normalize_spaces (List.intercalate [' ']
        (([tipo_logradouro, preposicao, titulo, nome_logradouro]).filter
          (fun p => !p.isEmpty)))
      some ⟨cep, street, city, region, neighborhood⟩

/-- A 'D' line of length 519: long enough to put one character into the
postcode slice `line[518:526]`, too short to fill it. -/
def shortLine : List Char :=
  'D' :: (List.replicate 517 ' ' ++ ['1'])

/-- Left-justify a field to width `w` with spaces, as in the fixed-width
DNE format. -/
def padTo (w : Nat) (s : List Char) : List Char :=
  s ++ List.replicate (w - s.length) ' '

/-- A fully populated 526-character logradouro line used as a concrete test
vector: sentinel 'D', region "SP", city "SAO PAULO", both neighborhood
fields set, all four street subfields set, postcode "01001000". -/
def richLine : List Char :=
  padTo 17 ('D' :: 'S' :: 'P' :: []) ++
  padTo 72 ("SAO PAULO".toList) ++
  List.replicate 13 ' ' ++
  padTo 72 ("CENTRO".toList) ++
  List.replicate 13 ' ' ++
  padTo 72 ("OUTRO".toList) ++
  padTo 26 ("AVENIDA".toList) ++
  padTo 3 ("DE".toList) ++
  padTo 72 ("DOUTOR".toList) ++
  List.replicate 14 ' ' ++
  padTo 72 ("PAULISTA".toList) ++
  List.replicate 72 ' ' ++
  "01001000".toList

/-- The record `parse_logradouro_line` produces for `richLine`. -/
def richRecord : DneRecord :=
  ⟨"01001000".toList, "AVENIDA DE DOUTOR PAULISTA".toList, "SAO PAULO".toList,
   "SP".toList, "CENTRO".toList⟩

/-! ## The differential synchronization of `sync_database` (src/update_dne.py)

`sync_database` runs, on one connection with autocommit disabled, an
INSERT..SELECT of every staging row whose cep is absent from the target
table, then a DELETE of every target row whose cep is absent from staging,
then a single `conn.commit()`.  Work done before the commit is pending:
it becomes the durable table contents only at the commit; if any statement
raises, the exception escapes the connection context and the uncommitted
work is rolled back, leaving the committed contents untouched. -/

/-- Which statement of `sync_database`, if any, raises an exception. -/
inductive FailStep
  | insertStep
  | deleteStep
  | commitStep
  | noFail
deriving DecidableEq, Repr

/-- The state of the target relation as seen through the transaction:
`committed` is the durable contents, `pending` the contents as modified by
the statements executed so far in the open transaction. -/
structure TxState where
  committed : List DneRecord
  pending : List DneRecord
deriving DecidableEq, Repr

/-- Rolling back the open transaction discards all pending work. -/
def rollback (st : TxState) : TxState :=
  ⟨st.committed, st.committed⟩

/-- `conn.commit()`: the pending contents become durable. -/
def commitTx (st : TxState) : TxState :=
  ⟨st.pending, st.pending⟩

/-- The rows the INSERT..SELECT statement adds: every staging row whose cep
does not occur among the target rows (`LEFT JOIN ... WHERE target.cep IS
NULL`). -/
def insertMissing (target staging : List DneRecord) : List DneRecord :=
  staging.filter (fun r => !decide (r.cep ∈ target.map DneRecord.cep))

/-- The rows the DELETE statement keeps: every row of `t` whose cep occurs
in staging. -/
def keepPresent (staging t : List DneRecord) : List DneRecord :=
  t.filter (fun r => decide (r.cep ∈ staging.map DneRecord.cep))

/-- The rows the DELETE statement removes: every row of `t` whose cep does
not occur in staging (`LEFT JOIN ... WHERE stage.cep IS NULL`); its length
is the statement's rowcount. -/
def dropAbsent (staging t : List DneRecord) : List DneRecord :=
  t.filter (fun r => !decide (r.cep ∈ staging.map DneRecord.cep))

/-- `sync_database`: the insert step, the delete step and the commit, run
in order inside one transaction, with `f` injecting an exception at one of
the three statements.  On success the result carries the pair
(inserted rowcount, deleted rowcount) that the function logs; on failure it
carries `none` and the rolled-back state. -/
def sync_database (target staging : List DneRecord) (f : FailStep) :
    TxState × Option (Nat × Nat) :=
  let st0 : TxState := ⟨target, target⟩
  if f = FailStep.insertStep then (rollback st0, none)
  else
    let inserted := (insertMissing st0.pending staging).length
    let st1 : TxState := ⟨st0.committed, st0.pending ++ insertMissing st0.pending staging⟩
    if f = FailStep.deleteStep then (rollback st1, none)
    else
      let deleted := (dropAbsent staging st1.pending).length
      let st2 : TxState := ⟨st1.committed, keepPresent staging st1.pending⟩
      if f = FailStep.commitStep then (rollback st2, none)
      else (commitTx st2, some (inserted, deleted))

/-- The key set (set of cep values) of a relation's contents. -/
def keySet (t : List DneRecord) : Finset (List Char) :=
  (t.map DneRecord.cep).toFinset

/-! ## The web control surface of src/app.py

`run_update` sets the shared status to running, executes the run, records
success or the failure message, and clears the running flag in a finally
block.  The `/run` handler checks the running flag under `status_lock`,
releases the lock, and only then spawns the worker thread — the thread,
not the handler, is what sets `running` to true. -/

/-- Outcome recorded in `status["last_result"]`. -/
inductive RunResult
  | success
  | failed
deriving DecidableEq, Repr

/-- The shared `status` dictionary of src/app.py. -/
structure RunStatus where
  running : Bool
  last_run : Option Nat
  last_result : Option RunResult
  last_error : Option (List Char)
deriving DecidableEq, Repr

/-- `run_update` of src/app.py as a function of the run's outcome
(`run_sync` returning normally or raising with a message): set the status
to running with cleared result fields, then record success or the failure
message, then clear the running flag (finally block).  The resulting status
does not depend on the prior status because every field is overwritten. -/
def run_update (now : Nat) (outcome : Except (List Char) Unit) : RunStatus :=
  let started : RunStatus := ⟨true, some now, none, none⟩
  match outcome with
  | Except.ok _ =>
      { started with last_result := some RunResult.success, running := false }
  | Except.error msg =>
      { started with last_result := some RunResult.failed,
                     last_error := some msg, running := false }

/-- Response of the `/run` handler. -/
inductive Resp
  | started
  | conflict
deriving DecidableEq, Repr

/-- Where a `/run` request is in the handler: before the locked check,
between the check and `thread.start()`, or finished with a response. -/
inductive ReqPC
  | atCheck
  | afterCheck
  | finished (r : Resp)
deriving DecidableEq, Repr

/-- Identity of one of two concurrent `/run` requests. -/
inductive Tid
  | A
  | B
deriving DecidableEq, Repr

/-- Shared state of the interleaving model: the `running` flag of the
status dictionary, how many background runs have been started, the program
counter of each request, and whether each spawned worker thread has yet to
execute the start of `run_update`. -/
structure SysState where
  running : Bool
  runsStarted : Nat
  reqA : ReqPC
  reqB : ReqPC
  workerPendingA : Bool
  workerPendingB : Bool
deriving DecidableEq, Repr

/-- Program counter of request `t`. -/
def getReq (s : SysState) (t : Tid) : ReqPC :=
  match t with
  | Tid.A => s.reqA
  | Tid.B => s.reqB

/-- Set the program counter of request `t`. -/
def setReq (s : SysState) (t : Tid) (pc : ReqPC) : SysState :=
  match t with
  | Tid.A => { s with reqA := pc }
  | Tid.B => { s with reqB := pc }

/-- Whether the worker thread spawned for `t` has not yet begun. -/
def getWorkerPending (s : SysState) (t : Tid) : Bool :=
  match t with
  | Tid.A => s.workerPendingA
  | Tid.B => s.workerPendingB

/-- Record whether the worker thread spawned for `t` has begun. -/
def setWorkerPending (s : SysState) (t : Tid) (b : Bool) : SysState :=
  match t with
  | Tid.A => { s with workerPendingA := b }
  | Tid.B => { s with workerPendingB := b }

/-- One atomic action of the interleaving model: `check t` is request `t`'s
`with status_lock: if status["running"]: return 409` block; `spawn t` is
its `thread.start()` plus the "started" response, executed after the lock
is released; `workerBegin t` is the spawned thread entering `run_update`
and setting `status["running"] = True`. -/
inductive SysAction
  | check (t : Tid)
  | spawn (t : Tid)
  | workerBegin (t : Tid)
deriving DecidableEq, Repr

/-- Small-step semantics of src/app.py's `/run` path: `none` when the
action is not enabled in the given state. -/
def step (s : SysState) : SysAction → Option SysState
  | SysAction.check t =>
    match getReq s t with
    | ReqPC.atCheck =>
        if s.running then some (setReq s t (ReqPC.finished Resp.conflict))
        else some (setReq s t ReqPC.afterCheck)
    | _ => none
  | SysAction.spawn t =>
    match getReq s t with
    | ReqPC.afterCheck =>
        some { setWorkerPending (setReq s t (ReqPC.finished Resp.started)) t true with
                 runsStarted := s.runsStarted + 1 }
    | _ => none
  | SysAction.workerBegin t =>
    if getWorkerPending s t then
      some { setWorkerPending s t false with running := true }
    else none

/-- Run a schedule of actions from a state; `none` if any action is not
enabled. -/
def runSched (s : SysState) : List SysAction → Option SysState
  | [] => some s
  | a :: rest =>
    match step s a with
    | some s2 => runSched s2 rest
    | none => none

/-- Idle initial state: no run in progress, both requests about to enter
the handler. -/
def webInit : SysState :=
  ⟨false, 0, ReqPC.atCheck, ReqPC.atCheck, false, false⟩

/-! ## Concrete rows for witnesses -/

/-- A target row. -/
def rowA : DneRecord := ⟨"11111111".toList, "A ST".toList, [], [], []⟩

/-- A target row whose key also occurs in staging. -/
def rowB : DneRecord := ⟨"22222222".toList, "OLD".toList, [], [], []⟩

/-- A staging row with `rowB`'s key but different non-key fields. -/
def rowB2 : DneRecord := ⟨"22222222".toList, "NEW".toList, [], [], []⟩

/-- A staging row whose key is absent from the target. -/
def rowC : DneRecord := ⟨"33333333".toList, "C ST".toList, [], [], []⟩

/-! ## Lemmas about the synchronization model -/

/-- Mapping the key out of a key-predicate filter commutes with filtering
the key list. -/
lemma map_filter_key (q : List Char → Bool) (l : List DneRecord) :
    (l.filter (fun r => q r.cep)).map DneRecord.cep = (l.map DneRecord.cep).filter q := by
  induction l with
  | nil => rfl
  | cons a l ih =>
    simp only [List.filter_cons, List.map_cons]
    by_cases h : q a.cep
    · simp [h, ih]
    · simp [h, ih]

/-- The successful run of `sync_database`, unfolded. -/
lemma sync_database_noFail_eq (target staging : List DneRecord) :
    sync_database target staging FailStep.noFail =
      (⟨keepPresent staging (target ++ insertMissing target staging),
        keepPresent staging (target ++ insertMissing target staging)⟩,
       some ((insertMissing target staging).length,
             (dropAbsent staging (target ++ insertMissing target staging)).length)) := rfl

/-- A key occurs in the reconciled table exactly when it occurs in
staging. -/
lemma mem_keys_sync (target staging : List DneRecord) (k : List Char) :
    k ∈ (keepPresent staging (target ++ insertMissing target staging)).map DneRecord.cep ↔
      k ∈ staging.map DneRecord.cep := by
  unfold keepPresent insertMissing
  rw [map_filter_key (fun c => decide (c ∈ staging.map DneRecord.cep)),
      List.map_append,
      map_filter_key (fun c => !decide (c ∈ target.map DneRecord.cep))]
  simp only [List.mem_filter, List.mem_append, decide_eq_true_eq, Bool.not_eq_true',
    decide_eq_false_iff_not]
  constructor
  · rintro ⟨-, h2⟩
    exact h2
  · intro hk
    by_cases hT : k ∈ target.map DneRecord.cep
    · exact ⟨Or.inl hT, hk⟩
    · exact ⟨Or.inr ⟨hk, hT⟩, hk⟩

/-- Counting the keys of `S` that avoid `T` is the cardinality of the
set difference, provided `S` has no duplicate keys. -/
lemma length_filter_not_mem (S T : List (List Char)) (hS : S.Nodup) :
    (S.filter (fun k => !decide (k ∈ T))).length = (S.toFinset \ T.toFinset).card := by
  have hnd : (S.filter (fun k => !decide (k ∈ T))).Nodup := hS.filter _
  rw [← List.toFinset_card_of_nodup hnd, List.toFinset_filter]
  congr 1
  ext k
  simp [Bool.not_eq_true', decide_eq_false_iff_not]

/-- Filtering an already reconciled table by presence in staging changes
nothing. -/
lemma keepPresent_idem (staging t : List DneRecord) :
    keepPresent staging (keepPresent staging t) = keepPresent staging t := by
  unfold keepPresent
  apply List.filter_eq_self.mpr
  intro r hr
  exact (List.mem_filter.mp hr).2

/-- An already reconciled table has no stale rows. -/
lemma dropAbsent_keepPresent (staging t : List DneRecord) :
    dropAbsent staging (keepPresent staging t) = [] := by
  unfold dropAbsent keepPresent
  apply List.filter_eq_nil_iff.mpr
  intro r hr
  have h2 := (List.mem_filter.mp hr).2
  rw [h2]
  decide

/-! ## Lemmas about the decoder -/

/-- `parse_logradouro_line` returns `none` exactly on the empty line, a
line not starting with 'D', or an empty stripped postcode slice. -/
lemma parse_eq_none_iff_aux (line : List Char) :
    parse_logradouro_line line = none ↔
      line = [] ∨ line.head? ≠ some 'D' ∨ pyStrip (pySlice line 518 526) = [] := by
  simp only [parse_logradouro_line]
  split
  next hc =>
    exact iff_of_true rfl (hc.elim Or.inl (fun h => Or.inr (Or.inl h)))
  next hc =>
    push_neg at hc
    split
    next hcep => exact iff_of_true rfl (Or.inr (Or.inr hcep))
    next hcep =>
      refine iff_of_false (by simp) ?_
      rintro (h | h | h)
      · exact hc.1 h
      · exact h hc.2
      · exact hcep h

/-- Characterization of a successful decode: the record is exactly the
tuple of field expressions of `parse_logradouro_line`, and the stripped
postcode slice is non-empty. -/
lemma parse_some_fields (line : List Char) (r : DneRecord)
    (h : parse_logradouro_line line = some r) :
    r = ⟨pyStrip (pySlice line 518 526),
         normalize_spaces (List.intercalate [' ']
           (([normalize_spaces (pySlice line 259 285), normalize_spaces (pySlice line 285 288),
              normalize_spaces (pySlice line 288 360),
              normalize_spaces (pySlice line 374 446)]).filter (fun p => !p.isEmpty))),
         normalize_spaces (pySlice line 17 89),
         pyStrip (pySlice line 1 3),
         if normalize_spaces (pySlice line 102 174) = [] then
           normalize_spaces (pySlice line 187 259)
         else normalize_spaces (pySlice line 102 174)⟩ ∧
      pyStrip (pySlice line 518 526) ≠ [] := by
  simp only [parse_logradouro_line] at h
  split at h
  · exact absurd h (by simp)
  · split at h
    next hcep => exact absurd h (by simp)
    next hcep =>
      injection h with h1
      subst h1
      exact ⟨rfl, hcep⟩

/-- Stripping whitespace never lengthens a string. -/
lemma pyStrip_length_le (l : List Char) : (pyStrip l).length ≤ l.length := by
  unfold pyStrip
  rw [List.length_reverse]
  refine le_trans (List.dropWhile_sublist _).length_le ?_
  rw [List.length_reverse]
  exact (List.dropWhile_sublist _).length_le

/-- A slice `s[a:b]` has at most `b - a` characters. -/
lemma pySlice_length_le (l : List Char) (a b : Nat) :
    (pySlice l a b).length ≤ b - a := by
  simp only [pySlice, List.length_take]
  omega

/-! ## Claim theorems about the decoder -/

/-- C5: `parse_logradouro_line` returns None exactly when the line is
empty, or its first character is not the sentinel 'D', or the extracted
postcode field is empty after trimming; every other line yields a record —
no other field being empty causes rejection. -/
theorem parse_logradouro_line_none_iff (line : List Char) :
    parse_logradouro_line line = none ↔
      line = [] ∨ line.head? ≠ some 'D' ∨ pyStrip (pySlice line 518 526) = [] :=
  parse_eq_none_iff_aux line

/-- C6 (counterexample): the code does not guarantee an 8-character
postcode — a 'D' line of length 519 is accepted with a 1-character
postcode. -/
theorem parse_cep_not_always_eight :
    ∃ line r, parse_logradouro_line line = some r ∧ r.cep.length ≠ 8 :=
  ⟨shortLine, ⟨['1'], [], [], [], []⟩, by decide, by decide⟩

/-- C6 (amended): every record produced by `parse_logradouro_line` has a
non-empty postcode of at most 8 characters (the slice `line[518:526]`
stripped); exact length 8 is not enforced. -/
theorem parse_cep_length_le_eight (line : List Char) (r : DneRecord)
    (h : parse_logradouro_line line = some r) :
    r.cep ≠ [] ∧ r.cep.length ≤ 8 := by
  obtain ⟨h1, hne⟩ := parse_some_fields line r h
  subst h1
  refine ⟨hne, ?_⟩
  refine le_trans (pyStrip_length_le _) ?_
  exact le_trans (pySlice_length_le _ _ _) (by norm_num)

/-- C6 witness: the amended bound at a fully populated concrete line. -/
theorem parse_cep_length_le_eight_witness :
    parse_logradouro_line richLine = some richRecord ∧
      (richRecord.cep ≠ [] ∧ richRecord.cep.length ≤ 8) :=
  ⟨by decide, parse_cep_length_le_eight richLine richRecord (by decide)⟩

/-- C7: the street of every produced record is the four street subfields
(street-type, preposition, title, name — each a fixed-offset slice,
whitespace-normalized) in that order, the empty ones skipped, joined with a
single space, then normalized again. -/
theorem parse_street_concat (line : List Char) (r : DneRecord)
    (h : parse_logradouro_line line = some r) :
    r.street = normalize_spaces (List.intercalate [' ']
      (([normalize_spaces (pySlice line 259 285), normalize_spaces (pySlice line 285 288),
         normalize_spaces (pySlice line 288 360),
         normalize_spaces (pySlice line 374 446)]).filter (fun p => !p.isEmpty))) := by
  obtain ⟨h1, -⟩ := parse_some_fields line r h
  subst h1
  rfl

/-- C7 witness: the street equation at a concrete line with all four
subfields populated. -/
theorem parse_street_concat_witness :
    parse_logradouro_line richLine = some richRecord ∧
      richRecord.street = normalize_spaces (List.intercalate [' ']
        (([normalize_spaces (pySlice richLine 259 285),
           normalize_spaces (pySlice richLine 285 288),
           normalize_spaces (pySlice richLine 288 360),
           normalize_spaces (pySlice richLine 374 446)]).filter (fun p => !p.isEmpty))) :=
  ⟨by decide, parse_street_concat richLine richRecord (by decide)⟩

/-- C8: the neighborhood of every produced record is the normalized
initial-neighborhood slice when that is non-empty, and otherwise the
normalized final-neighborhood slice; the two are never combined. -/
theorem parse_neighborhood_choice (line : List Char) (r : DneRecord)
    (h : parse_logradouro_line line = some r) :
    r.neighborhood =
      if normalize_spaces (pySlice line 102 174) ≠ [] then
        normalize_spaces (pySlice line 102 174)
      else normalize_spaces (pySlice line 187 259) := by
  obtain ⟨h1, -⟩ := parse_some_fields line r h
  subst h1
  by_cases hni : normalize_spaces (pySlice line 102 174) = []
  · simp [hni]
  · simp [hni]

/-- C8 witness: the neighborhood choice at a concrete line where both
neighborhood fields are populated and the initial one wins. -/
theorem parse_neighborhood_choice_witness :
    parse_logradouro_line richLine = some richRecord ∧
      richRecord.neighborhood =
        (if normalize_spaces (pySlice richLine 102 174) ≠ [] then
          normalize_spaces (pySlice richLine 102 174)
        else normalize_spaces (pySlice richLine 187 259)) :=
  ⟨by decide, parse_neighborhood_choice richLine richRecord (by decide)⟩

/-- C10: the decoder is total by construction (it is a Lean function on
arbitrary `List Char`, mirroring Python's never-failing slicing), and every
line shorter than 519 characters is rejected because its postcode slice
`line[518:526]` is empty. -/
theorem parse_short_rejected (line : List Char) (h : line.length < 519) :
    parse_logradouro_line line = none := by
  apply (parse_eq_none_iff_aux line).mpr
  refine Or.inr (Or.inr ?_)
  have hd : line.drop 518 = [] := List.drop_eq_nil_of_le (by omega)
  unfold pySlice
  rw [hd]
  rfl

/-- C10 witness: a 518-character 'D' line (one short of reaching the
postcode field) is rejected. -/
theorem parse_short_rejected_witness :
    ('D' :: List.replicate 517 ' ').length < 519 ∧
      parse_logradouro_line ('D' :: List.replicate 517 ' ') = none :=
  ⟨by decide, parse_short_rejected ('D' :: List.replicate 517 ' ') (by decide)⟩

/-! ## Claim theorems about the synchronization -/

/-- C1: after a successful reconciliation the target key set equals the
staging key set exactly, the logged inserted count is the cardinality of
staging-minus-target, and the deleted count is the cardinality of
target-minus-staging. -/
theorem sync_database_convergence (target staging : List DneRecord)
    (hT : (target.map DneRecord.cep).Nodup) (hS : (staging.map DneRecord.cep).Nodup) :
    keySet (sync_database target staging FailStep.noFail).1.committed = keySet staging ∧
      (sync_database target staging FailStep.noFail).2 =
        some ((keySet staging \ keySet target).card,
              (keySet target \ keySet staging).card) := by
  have e1 : (sync_database target staging FailStep.noFail).1.committed =
      keepPresent staging (target ++ insertMissing target staging) := rfl
  have e2 : (sync_database target staging FailStep.noFail).2 =
      some ((insertMissing target staging).length,
            (dropAbsent staging (target ++ insertMissing target staging)).length) := rfl
  constructor
  · rw [e1]
    unfold keySet
    apply Finset.ext
    intro k
    rw [List.mem_toFinset, List.mem_toFinset]
    exact mem_keys_sync target staging k
  · rw [e2]
    unfold keySet
    have hins : (insertMissing target staging).length =
        ((staging.map DneRecord.cep).toFinset \ (target.map DneRecord.cep).toFinset).card := by
      rw [← List.length_map (insertMissing target staging) DneRecord.cep]
      unfold insertMissing
      rw [map_filter_key (fun c => !decide (c ∈ target.map DneRecord.cep))]
      exact length_filter_not_mem _ _ hS
    have hdel : (dropAbsent staging (target ++ insertMissing target staging)).length =
        ((target.map DneRecord.cep).toFinset \ (staging.map DneRecord.cep).toFinset).card := by
      rw [← List.length_map (dropAbsent staging (target ++ insertMissing target staging))
            DneRecord.cep]
      unfold dropAbsent
      rw [map_filter_key (fun c => !decide (c ∈ staging.map DneRecord.cep)),
          List.map_append, List.filter_append]
      have h0 : ((insertMissing target staging).map DneRecord.cep).filter
          (fun c => !decide (c ∈ staging.map DneRecord.cep)) = [] := by
        apply List.filter_eq_nil_iff.mpr
        intro k hk
        unfold insertMissing at hk
        rw [map_filter_key (fun c => !decide (c ∈ target.map DneRecord.cep))] at hk
        have hkS : k ∈ staging.map DneRecord.cep := (List.mem_filter.mp hk).1
        rw [decide_eq_true hkS]
        decide
      rw [h0, List.append_nil]
      exact length_filter_not_mem _ _ hT
    rw [hins, hdel]

/-- C1 witness: reconciling target {11111111, 22222222} with staging
{22222222, 33333333} converges the key set and reports one insert and one
delete. -/
theorem sync_database_convergence_witness :
    ([rowA, rowB].map DneRecord.cep).Nodup ∧ ([rowB2, rowC].map DneRecord.cep).Nodup ∧
      (keySet (sync_database [rowA, rowB] [rowB2, rowC] FailStep.noFail).1.committed =
          keySet [rowB2, rowC] ∧
        (sync_database [rowA, rowB] [rowB2, rowC] FailStep.noFail).2 =
          some ((keySet [rowB2, rowC] \ keySet [rowA, rowB]).card,
                (keySet [rowA, rowB] \ keySet [rowB2, rowC]).card)) :=
  ⟨by decide, by decide,
   sync_database_convergence [rowA, rowB] [rowB2, rowC] (by decide) (by decide)⟩

/-- C2: if the insert step, the delete step or the commit raises, the
transaction is rolled back: the committed contents are exactly the prior
target contents and no counts are produced. -/
theorem sync_database_atomic_rollback (target staging : List DneRecord) (f : FailStep)
    (h : f ≠ FailStep.noFail) :
    (sync_database target staging f).1.committed = target ∧
      (sync_database target staging f).2 = none := by
  cases f with
  | insertStep => exact ⟨rfl, rfl⟩
  | deleteStep => exact ⟨rfl, rfl⟩
  | commitStep => exact ⟨rfl, rfl⟩
  | noFail => exact absurd rfl h

/-- C2 witness: a failure at the delete step leaves the concrete target
unchanged. -/
theorem sync_database_atomic_rollback_witness :
    FailStep.deleteStep ≠ FailStep.noFail ∧
      ((sync_database [rowA, rowB] [rowB2, rowC] FailStep.deleteStep).1.committed =
          [rowA, rowB] ∧
        (sync_database [rowA, rowB] [rowB2, rowC] FailStep.deleteStep).2 = none) :=
  ⟨by decide,
   sync_database_atomic_rollback [rowA, rowB] [rowB2, rowC] FailStep.deleteStep (by decide)⟩

/-- C3: a target row whose key also occurs in staging survives
reconciliation entirely unchanged, and it is the unique row with its key in
the reconciled table — its non-key fields are never refreshed from the
staging row. -/
theorem sync_database_non_overwrite (target staging : List DneRecord) (r : DneRecord)
    (hT : (target.map DneRecord.cep).Nodup)
    (hr : r ∈ target) (hk : r.cep ∈ staging.map DneRecord.cep) :
    r ∈ (sync_database target staging FailStep.noFail).1.committed ∧
      ∀ r2 ∈ (sync_database target staging FailStep.noFail).1.committed,
        r2.cep = r.cep → r2 = r := by
  have e1 : (sync_database target staging FailStep.noFail).1.committed =
      keepPresent staging (target ++ insertMissing target staging) := rfl
  rw [e1]
  constructor
  · unfold keepPresent
    exact List.mem_filter.mpr ⟨List.mem_append.mpr (Or.inl hr), decide_eq_true hk⟩
  · intro r2 hr2 hcep
    unfold keepPresent at hr2
    obtain ⟨hmem, -⟩ := List.mem_filter.mp hr2
    rcases List.mem_append.mp hmem with hin | hin
    · exact List.inj_on_of_nodup_map hT hin hr hcep
    · unfold insertMissing at hin
      obtain ⟨-, hnot⟩ := List.mem_filter.mp hin
      rw [Bool.not_eq_true', decide_eq_false_iff_not] at hnot
      exact absurd (by rw [hcep]; exact List.mem_map_of_mem _ hr) hnot

/-- C3 witness: row 22222222 of the target survives although the staging
row with the same key has a different street. -/
theorem sync_database_non_overwrite_witness :
    ([rowA, rowB].map DneRecord.cep).Nodup ∧ rowB ∈ [rowA, rowB] ∧
      rowB.cep ∈ [rowB2, rowC].map DneRecord.cep ∧
      (rowB ∈ (sync_database [rowA, rowB] [rowB2, rowC] FailStep.noFail).1.committed ∧
        ∀ r2 ∈ (sync_database [rowA, rowB] [rowB2, rowC] FailStep.noFail).1.committed,
          r2.cep = rowB.cep → r2 = rowB) :=
  ⟨by decide, by decide, by decide,
   sync_database_non_overwrite [rowA, rowB] [rowB2, rowC] rowB
     (by decide) (by decide) (by decide)⟩

/-- C4: running `sync_database` a second time with the same staging
contents inserts nothing, deletes nothing, and leaves the committed table
exactly as the first run left it. -/
theorem sync_database_idempotent (target staging : List DneRecord) :
    sync_database ((sync_database target staging FailStep.noFail).1.committed) staging
        FailStep.noFail =
      (⟨(sync_database target staging FailStep.noFail).1.committed,
        (sync_database target staging FailStep.noFail).1.committed⟩, some (0, 0)) := by
  have e1 : (sync_database target staging FailStep.noFail).1.committed =
      keepPresent staging (target ++ insertMissing target staging) := rfl
  rw [e1, sync_database_noFail_eq]
  have hins : insertMissing
      (keepPresent staging (target ++ insertMissing target staging)) staging = [] := by
    unfold insertMissing
    apply List.filter_eq_nil_iff.mpr
    intro r hrs
    have hmem : r.cep ∈
        (keepPresent staging (target ++ insertMissing target staging)).map DneRecord.cep :=
      (mem_keys_sync target staging r.cep).mpr (List.mem_map_of_mem _ hrs)
    unfold insertMissing at hmem
    rw [decide_eq_true hmem]
    decide
  rw [hins, List.append_nil, keepPresent_idem, dropAbsent_keepPresent]
  rfl

/-! ## Claim theorem about the run controller -/

/-- `run_update` always clears the running flag, whatever the outcome. -/
theorem run_update_clears_running (now : Nat) (o : Except (List Char) Unit) :
    (run_update now o).running = false := by
  cases o <;> rfl

/-- A failed run records the failed result and the error message while
leaving the running state. -/
theorem run_update_failure_status (now : Nat) (msg : List Char) :
    run_update now (Except.error msg) =
      ⟨false, some now, some RunResult.failed, some msg⟩ := rfl

/-- C9: the check-and-start sequence of the `/run` handler is not atomic —
from the idle state, the interleaving check(A), check(B), spawn(A),
spawn(B) is enabled and ends with both requests answered "started" and two
background runs started, because the lock is released between the running
check and `thread.start()`, and `running` is only set later inside the
worker thread. -/
theorem run_check_and_start_race :
    runSched webInit [SysAction.check Tid.A, SysAction.check Tid.B,
        SysAction.spawn Tid.A, SysAction.spawn Tid.B] =
      some ⟨false, 2, ReqPC.finished Resp.started, ReqPC.finished Resp.started,
            true, true⟩ := by decide
